import Mathlib

/-!
# Common-Lecturer-Finder: verified model of the client-side rendering layer

Shallow embedding of the two front-end modules of the repository:

* `src/static/prettier.js` — the timetable viewer: break-slot heuristic,
  grid renderer with per-course colors, HTML escaping, image/PDF export
  with 16:9 normalization, and its error handling;
* `src/static/app.js` — the shared-lecturer comparison view: course cards,
  aggregate counters, and its error handling.

JavaScript values that may be `null`/`undefined` are modelled as `Option`;
JS truthiness of a string field (`undefined`, `null` and `""` are falsy) is
the `truthy` predicate below.  Mutable module state (the course-color map)
is modelled by explicit state passing.  DOM output is modelled structurally
(header cells, body cells, cards) with the interpolated strings carried
verbatim, and browser-side behavior that the code delegates to the DOM
(text-node escaping) is modelled separately and marked as such.
-/

namespace CLF

/-- `DAYS` from `prettier.js`: the fixed Monday–Friday day list. -/
def DAYS : List String := ["MON", "TUE", "WED", "THU", "FRI"]

/-- The fixed 8-entry color palette `COLORS` from `prettier.js`. -/
def COLORS : List String :=
  ["var(--course-1)", "var(--course-2)", "var(--course-3)", "var(--course-4)",
   "var(--course-5)", "var(--course-6)", "var(--course-7)", "var(--course-8)"]

/-- JS truthiness of an optional string: `undefined`/`null` and `""` are falsy. -/
def truthy : Option String → Bool
  | none => false
  | some s => !(s == "")

/-- `CellData` (spec §3): the four string fields of a timetable cell; each may
be absent in the JSON, hence `Option`. -/
structure CellData where
  code : Option String
  name : Option String
  location : Option String
  lecturer : Option String
deriving Repr, DecidableEq

/-- A day's slot map `timetable[day]`: slot index → cell or absent. -/
def DayData : Type := Nat → Option CellData

/-- `Timetable` (spec §3): the payload consumed by `renderTimetable`. -/
structure TimetableData where
  «section» : String
  time_slots : List Nat
  slot_times : Nat → Option String
  timetable : String → Option DayData

/-- `data.timetable[day] || {}`: a missing day behaves as the empty slot map. -/
def dayDataOf (data : TimetableData) (day : String) : DayData :=
  (data.timetable day).getD (fun _ => none)

/-- Per-day test used to build `daysWithBreakData` in `renderTimetable`:
`dayData[6] && dayData[6].code`. -/
def slot6HasData (data : TimetableData) (day : String) : Bool :=
  match dayDataOf data day 6 with
  | some cell => truthy cell.code
  | none => false

/-- `daysWithBreakData` from `renderTimetable`: the days whose slot-6 entry is
present with a truthy code. -/
def daysWithBreakData (data : TimetableData) : List String :=
  DAYS.filter (fun day => slot6HasData data day)

/-- Per-day test used in `hasLongCodes`:
`dayData[6] && dayData[6].code && dayData[6].code.length > 1`. -/
def dayLongCode (data : TimetableData) (day : String) : Bool :=
  match dayDataOf data day 6 with
  | some cell =>
    match cell.code with
    | some c => !(c == "") && decide (1 < c.length)
    | none => false
  | none => false

/-- `hasLongCodes` from `renderTimetable`. -/
def hasLongCodes (data : TimetableData) : Bool :=
  DAYS.any (fun day => dayLongCode data day)

/-- The break-slot classifier (spec §4.1):
`hasBreakClasses = hasLongCodes || (daysWithBreakData.length > 0 && daysWithBreakData.length < 4)`. -/
def hasBreakClasses (data : TimetableData) : Bool :=
  hasLongCodes data ||
    (decide (0 < (daysWithBreakData data).length) &&
     decide ((daysWithBreakData data).length < 4))

/-- The slot-6 entry of a day has a non-empty code (spec wording for membership
in `daysWithBreakData`). -/
def Slot6NonEmpty (data : TimetableData) (day : String) : Prop :=
  ∃ cell c, dayDataOf data day 6 = some cell ∧ cell.code = some c ∧ c ≠ ""

/-- The slot-6 entry of a day has a code of length > 1 (spec wording for the
long-code test). -/
def Slot6LongCode (data : TimetableData) (day : String) : Prop :=
  ∃ cell c, dayDataOf data day 6 = some cell ∧ cell.code = some c ∧ 1 < c.length

theorem beq_empty_false_of_one_lt_length (c : String) (h : 1 < c.length) :
    (c == "") = false := by
  simp only [beq_eq_false_iff_ne, ne_eq]
  intro he
  subst he
  exact absurd h (by decide)

theorem slot6HasData_iff (data : TimetableData) (day : String) :
    slot6HasData data day = true ↔ Slot6NonEmpty data day := by
  unfold slot6HasData Slot6NonEmpty
  cases h : dayDataOf data day 6 with
  | none =>
    simp only [Bool.false_eq_true, false_iff]
    rintro ⟨cell', c', hcell, -, -⟩
    exact Option.noConfusion hcell
  | some cell =>
    cases hc : cell.code with
    | none =>
      simp only [truthy, hc, Bool.false_eq_true, false_iff]
      rintro ⟨cell', c', hcell, hcode, -⟩
      injection hcell with hcell
      rw [← hcell, hc] at hcode
      exact Option.noConfusion hcode
    | some c =>
      simp only [truthy, hc, Bool.not_eq_true', beq_eq_false_iff_ne, ne_eq]
      constructor
      · intro hne
        exact ⟨cell, c, rfl, hc, hne⟩
      · rintro ⟨cell', c', hcell, hcode, hne⟩
        injection hcell with hcell
        rw [← hcell, hc] at hcode
        injection hcode with hcode
        rw [hcode]
        exact hne

theorem dayLongCode_iff (data : TimetableData) (day : String) :
    dayLongCode data day = true ↔ Slot6LongCode data day := by
  unfold dayLongCode Slot6LongCode
  cases h : dayDataOf data day 6 with
  | none =>
    simp only [Bool.false_eq_true, false_iff]
    rintro ⟨cell', c', hcell, -, -⟩
    exact Option.noConfusion hcell
  | some cell =>
    cases hc : cell.code with
    | none =>
      simp only [hc, Bool.false_eq_true, false_iff]
      rintro ⟨cell', c', hcell, hcode, -⟩
      injection hcell with hcell
      rw [← hcell, hc] at hcode
      exact Option.noConfusion hcode
    | some c =>
      simp only [hc, Bool.and_eq_true, decide_eq_true_eq]
      constructor
      · rintro ⟨-, hlen⟩
        exact ⟨cell, c, rfl, hc, hlen⟩
      · rintro ⟨cell', c', hcell, hcode, hlen⟩
        injection hcell with hcell
        rw [← hcell, hc] at hcode
        injection hcode with hcode
        rw [← hcode] at hlen
        refine ⟨?_, hlen⟩
        rw [beq_empty_false_of_one_lt_length c hlen]
        rfl

theorem hasLongCodes_iff (data : TimetableData) :
    hasLongCodes data = true ↔ ∃ day ∈ DAYS, Slot6LongCode data day := by
  unfold hasLongCodes
  rw [List.any_eq_true]
  constructor
  · rintro ⟨day, hmem, hday⟩
    exact ⟨day, hmem, (dayLongCode_iff data day).mp hday⟩
  · rintro ⟨day, hmem, hday⟩
    exact ⟨day, hmem, (dayLongCode_iff data day).mpr hday⟩

theorem nonempty_of_longCode (data : TimetableData) (day : String) :
    Slot6LongCode data day → Slot6NonEmpty data day := by
  rintro ⟨cell, c, h1, h2, h3⟩
  refine ⟨cell, c, h1, h2, ?_⟩
  intro he
  subst he
  exact absurd h3 (by decide)

theorem mem_daysWithBreakData (data : TimetableData) (day : String) :
    day ∈ daysWithBreakData data ↔ day ∈ DAYS ∧ Slot6NonEmpty data day := by
  unfold daysWithBreakData
  rw [List.mem_filter, slot6HasData_iff]

theorem hasLongCodes_false_of_no_data (data : TimetableData)
    (h0 : (daysWithBreakData data).length = 0) : hasLongCodes data = false := by
  cases hlc : hasLongCodes data with
  | false => rfl
  | true =>
    exfalso
    obtain ⟨day, hday, hlong⟩ := (hasLongCodes_iff data).mp hlc
    have hmem : day ∈ daysWithBreakData data :=
      (mem_daysWithBreakData data day).mpr ⟨hday, nonempty_of_longCode data day hlong⟩
    rw [List.length_eq_zero] at h0
    rw [h0] at hmem
    exact absurd hmem (List.not_mem_nil day)

/-- C1: the break-slot classifier returns `hasBreakClasses = true` iff some
day's slot-6 entry has a code of length > 1, or the number of days whose
slot-6 entry has a non-empty code is strictly between 0 and 4; moreover
0 days with data yields break, 1–3 days with only single-character codes
yields real class, 4 or 5 days with only single-character codes yields
break, and any multi-character code yields real class. -/
theorem break_classifier_spec (data : TimetableData) :
    (∀ day, day ∈ daysWithBreakData data ↔ day ∈ DAYS ∧ Slot6NonEmpty data day)
    ∧ (hasBreakClasses data = true ↔
        ((∃ day ∈ DAYS, Slot6LongCode data day)
          ∨ (0 < (daysWithBreakData data).length ∧ (daysWithBreakData data).length < 4)))
    ∧ ((daysWithBreakData data).length = 0 → hasBreakClasses data = false)
    ∧ (hasLongCodes data = false → 0 < (daysWithBreakData data).length →
        (daysWithBreakData data).length ≤ 3 → hasBreakClasses data = true)
    ∧ (hasLongCodes data = false → 4 ≤ (daysWithBreakData data).length →
        hasBreakClasses data = false)
    ∧ (hasLongCodes data = true → hasBreakClasses data = true) := by
  refine ⟨mem_daysWithBreakData data, ?_, ?_, ?_, ?_, ?_⟩
  · unfold hasBreakClasses
    rw [Bool.or_eq_true, Bool.and_eq_true, decide_eq_true_eq, decide_eq_true_eq,
      hasLongCodes_iff]
  · intro h0
    unfold hasBreakClasses
    rw [hasLongCodes_false_of_no_data data h0, h0]
    rfl
  · intro hlc hpos hle
    unfold hasBreakClasses
    rw [hlc]
    simp only [Bool.false_or, Bool.and_eq_true, decide_eq_true_eq]
    omega
  · intro hlc hge
    unfold hasBreakClasses
    rw [hlc]
    simp only [Bool.false_or, Bool.and_eq_true, decide_eq_true_eq]
    simp only [Bool.and_eq_false_iff, decide_eq_false_iff_not]
    omega
  · intro hlc
    unfold hasBreakClasses
    rw [hlc]
    rfl

/-! ## Course colors (`getCourseColor`)

`prettier.js` keeps a module-level `courseColors` map (insertion ordered)
and a `colorIndex` counter; `renderTimetable` clears both before building
the grid.  The mutable pair is modelled as an explicit `ColorState`. -/

structure ColorState where
  courseColors : List (String × String)
  colorIndex : Nat
deriving Repr, DecidableEq

/-- The state after `courseColors.clear(); colorIndex = 0`. -/
def initColorState : ColorState := ⟨[], 0⟩

/-- `getCourseColor` from `prettier.js`: return the cached color, or assign
`COLORS[colorIndex % COLORS.length]` and bump the counter. -/
def getCourseColor (st : ColorState) (courseCode : String) : String × ColorState :=
  match st.courseColors.lookup courseCode with
  | some c => (c, st)
  | none =>
    let c := COLORS.getD (st.colorIndex % COLORS.length) ""
    (c, ⟨st.courseColors ++ [(courseCode, c)], st.colorIndex + 1⟩)

/-- Run a sequence of `getCourseColor` calls, keeping only the state. -/
def runColors (st : ColorState) (codes : List String) : ColorState :=
  codes.foldl (fun s c => (getCourseColor s c).2) st

/-! ## HTML escaping (`escapeHtml`) -/

/-- Modelled from the spec: the browser text-node escaping that
`escapeHtml` (src/static/prettier.js) delegates to the DOM via
`div.textContent = text; return div.innerHTML` — behavior of the browser,
not code present under `src/`.  Serializing a text node replaces `&`, `<`
and `>` by their character entities. -/
def escapeChar (c : Char) : String :=
  if c = '&' then "&amp;"
  else if c = '<' then "&lt;"
  else if c = '>' then "&gt;"
  else String.singleton c

/-- `escapeHtml` from `prettier.js`: falsy input (`null`/`undefined`/`""`)
gives `""`; otherwise the DOM text-node escaping of the string. -/
def escapeHtml (text : Option String) : String :=
  match text with
  | none => ""
  | some s => if s == "" then "" else String.join (s.toList.map escapeChar)

/-! ## Grid renderer (`renderTimetable`)

The table built by `renderTimetable` is modelled structurally: one
constructor per kind of `<th>`/`<td>` the code emits, with the interpolated
strings carried exactly as the template literals insert them. -/

/-- A header cell of the table: the leading `Day` header, the merged
`BREAK` header (label plus time), or a normal slot header (slot number plus
time). -/
inductive HeaderCell where
  | dayHeader
  | breakHeader (time : String)
  | slotHeader (slot : Nat) (time : String)
deriving Repr, DecidableEq

/-- A body cell: the merged break cell (with its `rowspan`), a course cell
(color plus the four escaped fields), or an empty placeholder cell. -/
inductive BodyCell where
  | breakCell (rowspan : Nat)
  | courseCell (color name code location lecturer : String)
  | emptyCell
deriving Repr, DecidableEq

/-- One `<tr>` of the body: the day label cell followed by the slot cells. -/
structure Row where
  dayLabel : String
  cells : List BodyCell
deriving Repr, DecidableEq

/-- The header row of `renderTimetable`: the `Day` header followed by one
header per entry of `time_slots`; slot 6 becomes the `BREAK` header exactly
when `hasBreakClasses` is false. -/
def renderHeader (data : TimetableData) : List HeaderCell :=
  HeaderCell.dayHeader ::
    data.time_slots.map (fun slot =>
      let time := (data.slot_times slot).getD ""
      if slot == 6 && !hasBreakClasses data then HeaderCell.breakHeader time
      else HeaderCell.slotHeader slot time)

/-- The cells emitted for one `(day, slot)` position of the body loop of
`renderTimetable`, threading the color state.  For the break column the
merged cell is emitted on day index 0 only and skipped on the other days;
otherwise a present cell with truthy code becomes a colored course cell
with escaped fields, and anything else an empty cell. -/
def renderSlotCell (hasBC : Bool) (dayData : DayData) (dayIndex slot : Nat)
    (st : ColorState) : List BodyCell × ColorState :=
  if slot == 6 && !hasBC then
    (if dayIndex == 0 then [BodyCell.breakCell 5] else [], st)
  else
    match dayData slot with
    | some cell =>
      if truthy cell.code then
        let p := getCourseColor st (cell.code.getD "")
        ([BodyCell.courseCell p.1 (escapeHtml cell.name) (escapeHtml cell.code)
            (escapeHtml cell.location) (escapeHtml cell.lecturer)], p.2)
      else ([BodyCell.emptyCell], st)
    | none => ([BodyCell.emptyCell], st)

/-- One body row of `renderTimetable`: fold the slot loop over
`time_slots`, accumulating cells and threading the color state. -/
def renderRow (data : TimetableData) (day : String) (dayIndex : Nat)
    (st : ColorState) : Row × ColorState :=
  let dayData := dayDataOf data day
  let p := data.time_slots.foldl
    (fun (acc : List BodyCell × ColorState) slot =>
      let q := renderSlotCell (hasBreakClasses data) dayData dayIndex slot acc.2
      (acc.1 ++ q.1, q.2))
    ([], st)
  (⟨day, p.1⟩, p.2)

/-- The body of the table: one row per entry of `DAYS`, in order, threading
the color state. -/
def renderBody (data : TimetableData) (st : ColorState) :
    List Row × ColorState :=
  (DAYS.enum).foldl
    (fun (acc : List Row × ColorState) p =>
      let q := renderRow data p.2 p.1 acc.2
      (acc.1 ++ [q.1], q.2))
    ([], st)

/-- The rendered table produced by `renderTimetable`, together with the
final color state. -/
structure RenderedTable where
  title : String
  header : List HeaderCell
  rows : List Row
  colorState : ColorState

/-- `renderTimetable` from `prettier.js`: reset the color assignments
(`courseColors.clear(); colorIndex = 0`), set the title, and build the
header row and the five day rows. -/
def renderTimetable (data : TimetableData) : RenderedTable :=
  let p := renderBody data initColorState
  { title := "SECTION " ++ data.«section»
    header := renderHeader data
    rows := p.1
    colorState := p.2 }

/-! ## Color assignment: first-seen order and palette cycling -/

/-- The palette entry handed out for the `i`-th assignment:
`COLORS[i % COLORS.length]`. -/
def paletteColor (i : Nat) : String := COLORS.getD (i % COLORS.length) ""

/-- One step of first-seen deduplication. -/
def firstSeenStep (acc : List String) (c : String) : List String :=
  if acc.contains c then acc else acc ++ [c]

/-- The distinct codes of `codes`, in first-seen order, appended after the
already-seen list `ds`. -/
def firstSeenFrom (ds codes : List String) : List String :=
  codes.foldl firstSeenStep ds

/-- The distinct codes of `codes` in first-seen order. -/
def firstSeen (codes : List String) : List String := firstSeenFrom [] codes

/-- The assignment map holding colors `paletteColor k, paletteColor (k+1), …`
for the codes of `ds` in order. -/
def assignFrom (k : Nat) : List String → List (String × String)
  | [] => []
  | c :: cs => (c, paletteColor k) :: assignFrom (k + 1) cs

theorem lookup_assignFrom_eq_none (c : String) :
    ∀ (ds : List String) (k : Nat), ds.contains c = false →
      (assignFrom k ds).lookup c = none := by
  intro ds
  induction ds with
  | nil => intro k _; rfl
  | cons d ds ih =>
    intro k hc
    rw [List.contains_cons, Bool.or_eq_false_iff] at hc
    unfold assignFrom
    rw [List.lookup_cons, hc.1]
    exact ih (k + 1) hc.2

theorem lookup_assignFrom_isSome (c : String) :
    ∀ (ds : List String) (k : Nat), ds.contains c = true →
      ∃ col, (assignFrom k ds).lookup c = some col := by
  intro ds
  induction ds with
  | nil => intro k hc; simp [List.contains] at hc
  | cons d ds ih =>
    intro k hc
    rw [List.contains_cons, Bool.or_eq_true] at hc
    unfold assignFrom
    rw [List.lookup_cons]
    cases hcd : (c == d) with
    | true => exact ⟨paletteColor k, rfl⟩
    | false =>
      rcases hc with hc | hc
      · rw [hcd] at hc; exact absurd hc (by decide)
      · exact ih (k + 1) hc

theorem assignFrom_append (c : String) :
    ∀ (ds : List String) (k : Nat),
      assignFrom k (ds ++ [c]) = assignFrom k ds ++ [(c, paletteColor (k + ds.length))] := by
  intro ds
  induction ds with
  | nil => intro k; simp [assignFrom]
  | cons d ds ih =>
    intro k
    show (d, paletteColor k) :: assignFrom (k + 1) (ds ++ [c]) = _
    rw [ih (k + 1)]
    simp [assignFrom, Nat.add_comm, Nat.add_assoc, Nat.add_left_comm]

theorem runColors_append (st : ColorState) (a b : List String) :
    runColors st (a ++ b) = runColors (runColors st a) b :=
  List.foldl_append _ _ _ _

theorem getCourseColor_state_assignFrom (ds : List String) (c : String) :
    (getCourseColor ⟨assignFrom 0 ds, ds.length⟩ c).2
      = ⟨assignFrom 0 (firstSeenStep ds c), (firstSeenStep ds c).length⟩ := by
  unfold getCourseColor firstSeenStep
  cases hc : ds.contains c with
  | true =>
    obtain ⟨col, hcol⟩ := lookup_assignFrom_isSome c ds 0 hc
    simp only [hcol, hc, if_true]
  | false =>
    simp only [lookup_assignFrom_eq_none c ds 0 hc, hc, Bool.false_eq_true, if_false]
    have h2 := assignFrom_append c ds 0
    rw [Nat.zero_add] at h2
    rw [h2]
    simp [paletteColor]

theorem runColors_assignFrom (codes : List String) :
    ∀ ds : List String,
      runColors ⟨assignFrom 0 ds, ds.length⟩ codes
        = ⟨assignFrom 0 (firstSeenFrom ds codes), (firstSeenFrom ds codes).length⟩ := by
  induction codes with
  | nil => intro ds; rfl
  | cons c cs ih =>
    intro ds
    show runColors (getCourseColor ⟨assignFrom 0 ds, ds.length⟩ c).2 cs = _
    rw [getCourseColor_state_assignFrom]
    exact ih (firstSeenStep ds c)

theorem assignFrom_eq_enumFrom :
    ∀ (ds : List String) (k : Nat),
      assignFrom k ds
        = (List.enumFrom k ds).map (fun p => (p.2, COLORS.getD (p.1 % 8) "")) := by
  intro ds
  induction ds with
  | nil => intro k; rfl
  | cons d ds ih =>
    intro k
    rw [List.enumFrom_cons, List.map_cons, ← ih (k + 1)]
    rfl

/-- The codes passed to `getCourseColor` at one `(dayIndex, slot)` position:
empty for the merged break column and for empty cells, the cell's raw code
for a rendered course cell. -/
def slotCodes (hasBC : Bool) (dayData : DayData) (dayIndex slot : Nat) : List String :=
  if slot == 6 && !hasBC then []
  else
    match dayData slot with
    | some cell => if truthy cell.code then [cell.code.getD ""] else []
    | none => []

/-- The codes passed to `getCourseColor` while rendering one day row. -/
def rowCodes (data : TimetableData) (day : String) (dayIndex : Nat) : List String :=
  data.time_slots.flatMap
    (fun slot => slotCodes (hasBreakClasses data) (dayDataOf data day) dayIndex slot)

/-- The codes passed to `getCourseColor` during a whole render, in
encounter order. -/
def renderedCodes (data : TimetableData) : List String :=
  (DAYS.enum).flatMap (fun p => rowCodes data p.2 p.1)

theorem renderSlotCell_state (hasBC : Bool) (dayData : DayData)
    (dayIndex slot : Nat) (st : ColorState) :
    (renderSlotCell hasBC dayData dayIndex slot st).2
      = runColors st (slotCodes hasBC dayData dayIndex slot) := by
  unfold renderSlotCell slotCodes
  cases hb : (slot == 6 && !hasBC) with
  | true => rfl
  | false =>
    simp only [Bool.false_eq_true, if_false]
    cases hd : dayData slot with
    | none => rfl
    | some cell =>
      cases ht : truthy cell.code with
      | true => simp [ht, runColors, List.foldl_cons, List.foldl_nil]
      | false => simp [ht, runColors, List.foldl_cons, List.foldl_nil]

theorem foldl_renderSlotCell_state (hasBC : Bool) (dayData : DayData) (dayIndex : Nat) :
    ∀ (slots : List Nat) (acc : List BodyCell) (st : ColorState),
      (slots.foldl
        (fun (a : List BodyCell × ColorState) slot =>
          let q := renderSlotCell hasBC dayData dayIndex slot a.2
          (a.1 ++ q.1, q.2)) (acc, st)).2
        = runColors st (slots.flatMap (fun slot => slotCodes hasBC dayData dayIndex slot)) := by
  intro slots
  induction slots with
  | nil => intro acc st; rfl
  | cons s ss ih =>
    intro acc st
    rw [List.foldl_cons, List.flatMap_cons, runColors_append]
    show (ss.foldl _ (_, (renderSlotCell hasBC dayData dayIndex s st).2)).2 = _
    rw [ih, renderSlotCell_state]

theorem renderRow_state (data : TimetableData) (day : String) (dayIndex : Nat)
    (st : ColorState) :
    (renderRow data day dayIndex st).2 = runColors st (rowCodes data day dayIndex) := by
  unfold renderRow rowCodes
  exact foldl_renderSlotCell_state (hasBreakClasses data) (dayDataOf data day) dayIndex
    data.time_slots [] st

theorem foldl_renderRow_state (data : TimetableData) :
    ∀ (pairs : List (Nat × String)) (acc : List Row) (st : ColorState),
      (pairs.foldl
        (fun (a : List Row × ColorState) p =>
          let q := renderRow data p.2 p.1 a.2
          (a.1 ++ [q.1], q.2)) (acc, st)).2
        = runColors st (pairs.flatMap (fun p => rowCodes data p.2 p.1)) := by
  intro pairs
  induction pairs with
  | nil => intro acc st; rfl
  | cons p ps ih =>
    intro acc st
    rw [List.foldl_cons, List.flatMap_cons, runColors_append]
    show (ps.foldl _ (_, (renderRow data p.2 p.1 st).2)).2 = _
    rw [ih, renderRow_state]

theorem renderTimetable_colorState (data : TimetableData) :
    (renderTimetable data).colorState = runColors initColorState (renderedCodes data) := by
  unfold renderTimetable renderBody renderedCodes
  exact foldl_renderRow_state data DAYS.enum [] initColorState

/-- C3: color assignment is deterministic and stable: the `i`-th distinct
course code encountered (0-based, first-seen order) is assigned palette
entry `i mod 8`, a code already assigned keeps its color with the state
unchanged, and a render's color thread starts from the reset (empty map,
counter 0) state. -/
theorem color_assignment_spec :
    (∀ codes : List String,
        (runColors initColorState codes).courseColors
          = (firstSeen codes).enum.map (fun p => (p.2, COLORS.getD (p.1 % 8) ""))
        ∧ (runColors initColorState codes).colorIndex = (firstSeen codes).length)
    ∧ (∀ (st : ColorState) (c col : String),
        st.courseColors.lookup c = some col → getCourseColor st c = (col, st))
    ∧ (∀ data : TimetableData,
        (renderTimetable data).colorState = runColors initColorState (renderedCodes data)) := by
  refine ⟨?_, ?_, renderTimetable_colorState⟩
  · intro codes
    have h := runColors_assignFrom codes []
    have hinit : (⟨assignFrom 0 [], ([] : List String).length⟩ : ColorState) = initColorState := rfl
    rw [hinit] at h
    rw [h]
    exact ⟨by rw [assignFrom_eq_enumFrom, List.enum_eq_enumFrom]; rfl, rfl⟩
  · intro st c col hcol
    unfold getCourseColor
    rw [hcol]

/-- C2: the single boolean `hasBreakClasses` controls both rendering
aspects consistently: when false, the slot-6 header is the `BREAK` header
and the slot-6 column is exactly one cell, emitted on day index 0 only,
with rowspan equal to the number of days (5); when true, the slot-6 header
shows the slot number and time, and every day emits exactly one
independent cell (never the merged break cell) for slot 6. -/
theorem break_rendering_consistent (data : TimetableData)
    (h6 : 6 ∈ data.time_slots) :
    (hasBreakClasses data = false →
      HeaderCell.breakHeader ((data.slot_times 6).getD "") ∈ renderHeader data
      ∧ (∀ (dayData : DayData) (st : ColorState),
          (renderSlotCell (hasBreakClasses data) dayData 0 6 st).1
            = [BodyCell.breakCell DAYS.length]
          ∧ ∀ dayIndex : Nat, dayIndex ≠ 0 →
            (renderSlotCell (hasBreakClasses data) dayData dayIndex 6 st).1 = [])
      ∧ DAYS.length = 5)
    ∧ (hasBreakClasses data = true →
      HeaderCell.slotHeader 6 ((data.slot_times 6).getD "") ∈ renderHeader data
      ∧ (∀ (dayData : DayData) (st : ColorState) (dayIndex : Nat),
          ((renderSlotCell (hasBreakClasses data) dayData dayIndex 6 st).1).length = 1
          ∧ ∀ r, BodyCell.breakCell r ∉
              (renderSlotCell (hasBreakClasses data) dayData dayIndex 6 st).1)) := by
  constructor
  · intro hbc
    refine ⟨?_, ?_, rfl⟩
    · unfold renderHeader
      refine List.mem_cons_of_mem _ ?_
      have := List.mem_map_of_mem
        (fun slot =>
          let time := (data.slot_times slot).getD ""
          if slot == 6 && !hasBreakClasses data then HeaderCell.breakHeader time
          else HeaderCell.slotHeader slot time) h6
      simpa [hbc] using this
    · intro dayData st
      rw [hbc]
      constructor
      · rfl
      · intro dayIndex hne
        unfold renderSlotCell
        simp [hne]
  · intro hbc
    constructor
    · unfold renderHeader
      refine List.mem_cons_of_mem _ ?_
      have := List.mem_map_of_mem
        (fun slot =>
          let time := (data.slot_times slot).getD ""
          if slot == 6 && !hasBreakClasses data then HeaderCell.breakHeader time
          else HeaderCell.slotHeader slot time) h6
      simpa [hbc] using this
    · intro dayData st dayIndex
      rw [hbc]
      unfold renderSlotCell
      cases hd : dayData 6 with
      | none => simp
      | some cell =>
        cases ht : truthy cell.code with
        | true => simp [ht]
        | false => simp [ht]

/-- C7: at every non-break cell position, a present entry with non-empty
code renders the four fields name/code/location/lecturer, HTML-escaped; an
absent entry or one whose code is falsy renders an empty placeholder
cell. -/
theorem cell_rendering_contract (data : TimetableData) (day : String)
    (dayIndex slot : Nat) (st : ColorState)
    (h : ¬(slot = 6 ∧ hasBreakClasses data = false)) :
    (∀ cell c, dayDataOf data day slot = some cell → cell.code = some c → c ≠ "" →
      (renderSlotCell (hasBreakClasses data) (dayDataOf data day) dayIndex slot st).1
        = [BodyCell.courseCell (getCourseColor st c).1 (escapeHtml cell.name)
            (escapeHtml cell.code) (escapeHtml cell.location) (escapeHtml cell.lecturer)])
    ∧ ((dayDataOf data day slot = none
        ∨ ∃ cell, dayDataOf data day slot = some cell ∧ truthy cell.code = false) →
      (renderSlotCell (hasBreakClasses data) (dayDataOf data day) dayIndex slot st).1
        = [BodyCell.emptyCell]) := by
  have hcond : (slot == 6 && !hasBreakClasses data) = false := by
    rcases Bool.eq_false_or_eq_true (hasBreakClasses data) with hbc | hbc
    · simp [hbc]
    · have hs : slot ≠ 6 := fun hs => h ⟨hs, hbc⟩
      simp [hs]
  constructor
  · intro cell c hcell hcode hne
    unfold renderSlotCell
    simp only [hcond, Bool.false_eq_true, if_false]
    rw [hcell]
    simp [truthy, hcode, hne]
  · rintro (hnone | ⟨cell, hcell, hfalsy⟩)
    · unfold renderSlotCell
      simp only [hcond, Bool.false_eq_true, if_false]
      rw [hnone]
    · unfold renderSlotCell
      simp only [hcond, Bool.false_eq_true, if_false]
      rw [hcell]
      simp [hfalsy]

theorem renderSlotCell_empty_day (hasBC : Bool) (dayIndex slot : Nat)
    (st : ColorState) :
    ∀ x ∈ (renderSlotCell hasBC (fun _ => none) dayIndex slot st).1,
      x = BodyCell.emptyCell ∨ x = BodyCell.breakCell 5 := by
  intro x hx
  unfold renderSlotCell at hx
  by_cases hb : (slot == 6 && !hasBC) = true
  · rw [if_pos hb] at hx
    by_cases hi : (dayIndex == 0) = true
    · rw [if_pos hi] at hx
      right
      simpa using hx
    · rw [if_neg hi] at hx
      exact absurd hx (List.not_mem_nil x)
  · rw [if_neg hb] at hx
    left
    simpa using hx

theorem foldl_cells_pred (hasBC : Bool) (dayData : DayData) (dayIndex : Nat)
    (P : BodyCell → Prop)
    (hstep : ∀ (slot : Nat) (st : ColorState),
      ∀ x ∈ (renderSlotCell hasBC dayData dayIndex slot st).1, P x) :
    ∀ (slots : List Nat) (acc : List BodyCell) (st : ColorState),
      (∀ x ∈ acc, P x) →
      ∀ x ∈ (slots.foldl
          (fun (a : List BodyCell × ColorState) slot =>
            let q := renderSlotCell hasBC dayData dayIndex slot a.2
            (a.1 ++ q.1, q.2)) (acc, st)).1, P x := by
  intro slots
  induction slots with
  | nil => intro acc st hacc; exact hacc
  | cons s ss ih =>
    intro acc st hacc
    rw [List.foldl_cons]
    refine ih _ _ ?_
    intro x hx
    rcases List.mem_append.mp hx with hx | hx
    · exact hacc x hx
    · exact hstep s st x hx

/-- C10: `renderTimetable` is total on partial input: a missing day is
treated as the empty slot mapping, its row contains only empty cells (and
possibly the shared merged break cell), the break heuristic sees no slot-6
data on that day, and `escapeHtml` maps `null`/`undefined`/`""` to the
empty string. -/
theorem render_total_on_missing_day (data : TimetableData) (day : String)
    (dayIndex : Nat) (st : ColorState) (h : data.timetable day = none) :
    dayDataOf data day = (fun _ => none)
    ∧ (∀ x ∈ (renderRow data day dayIndex st).1.cells,
        x = BodyCell.emptyCell ∨ x = BodyCell.breakCell 5)
    ∧ slot6HasData data day = false
    ∧ dayLongCode data day = false
    ∧ escapeHtml none = "" ∧ escapeHtml (some "") = "" := by
  have hfun : dayDataOf data day = (fun _ => none) := by
    unfold dayDataOf
    rw [h]
    rfl
  refine ⟨hfun, ?_, ?_, ?_, rfl, rfl⟩
  · intro x hx
    unfold renderRow at hx
    rw [hfun] at hx
    exact foldl_cells_pred (hasBreakClasses data) (fun _ => none) dayIndex
      (fun x => x = BodyCell.emptyCell ∨ x = BodyCell.breakCell 5)
      (fun s st' => renderSlotCell_empty_day (hasBreakClasses data) dayIndex s st')
      data.time_slots [] st (by intro x hx; exact absurd hx (List.not_mem_nil x)) x hx
  · unfold slot6HasData
    rw [hfun]
  · unfold dayLongCode
    rw [hfun]

/-! ## Comparison view (`app.js`)

`renderResults` builds its card HTML by template-literal interpolation,
with no escaping.  The card markup is modelled structurally: each card
carries the three interpolated fragments exactly as the template inserts
them (the `course_name` text, the `lecturer_name` text, and the
shared-sections fragment built by `map`/`join`). -/

/-- `Course entry` (spec §3): one element of `data.courses`. -/
structure Course where
  course_name : String
  lecturer_name : String
  shared_sections : List String
deriving Repr, DecidableEq

/-- Payload of `GET /api/shared-lecturers/{id}`; `courses` may be absent
(the code guards with `!courses`). -/
structure SharedLecturersData where
  courses : Option (List Course)

/-- One course card as `renderResults` interpolates it: the name and
lecturer fragments verbatim, and the shared-sections fragment. -/
structure CourseCard where
  nameHtml : String
  lecturerHtml : String
  sectionsHtml : String
deriving Repr, DecidableEq

/-- The `<span class="section-badge">Section ${s}</span>` badge. -/
def sectionBadge (s : String) : String :=
  "<span class=\"section-badge\">Section " ++ s ++ "</span>"

/-- The shared-sections fragment of a card: the `Shared with:` label
followed by the joined badges when `shared_sections.length > 0`, otherwise
the `no-shared` span. -/
def sectionsFragment (course : Course) : String :=
  if course.shared_sections.length > 0 then
    "<span class=\"shared-label\">Shared with:</span>"
      ++ String.join (course.shared_sections.map sectionBadge)
  else "<span class=\"no-shared\">No other sections share this lecturer</span>"

/-- One card of `renderResults`: `course_name`, `lecturer_name` and the
shared-sections values are interpolated verbatim — no escaping. -/
def renderCard (course : Course) : CourseCard :=
  { nameHtml := course.course_name
    lecturerHtml := course.lecturer_name
    sectionsHtml := sectionsFragment course }

/-- The comparison view's results area after `renderResults` / an error. -/
inductive CompareView where
  | emptyState (message : String)
  | results (totalCourses totalShared : Nat) (cards : List CourseCard)
deriving Repr, DecidableEq

/-- `renderResults` from `app.js`: empty state when `courses` is absent or
empty, otherwise the two aggregate counters (course count and the
`reduce`-computed shared-section sum) and one card per course. -/
def renderResults (data : SharedLecturersData) : CompareView :=
  match data.courses with
  | none => CompareView.emptyState "No courses found for this section"
  | some courses =>
    if courses.length = 0 then
      CompareView.emptyState "No courses found for this section"
    else
      CompareView.results courses.length
        (courses.foldl (fun sum c => sum + c.shared_sections.length) 0)
        (courses.map renderCard)

theorem foldl_add_length (f : Course → Nat) :
    ∀ (l : List Course) (n : Nat),
      l.foldl (fun sum c => sum + f c) n = n + (l.map f).sum := by
  intro l
  induction l with
  | nil => intro n; simp
  | cons c cs ih =>
    intro n
    rw [List.foldl_cons, ih, List.map_cons, List.sum_cons]
    omega

/-- C4: for a non-empty fetched course list, the two displayed aggregate
counters are the number of courses and the sum over the courses of the
length of `shared_sections`. -/
theorem aggregate_counters_spec (data : SharedLecturersData)
    (courses : List Course) (h1 : data.courses = some courses)
    (h2 : courses ≠ []) :
    renderResults data
      = CompareView.results courses.length
          ((courses.map (fun c => c.shared_sections.length)).sum)
          (courses.map renderCard) := by
  unfold renderResults
  rw [h1]
  have hlen : courses.length ≠ 0 := fun h0 => h2 (List.length_eq_zero.mp h0)
  simp [hlen, foldl_add_length]

/-- C9: `renderResults` interpolates `course_name`, `lecturer_name` and
each shared-section value into the generated card verbatim, with no HTML
escaping — unlike the timetable cell renderer, whose course-cell fields go
through `escapeHtml`. -/
theorem comparison_view_unescaped :
    (∀ course : Course,
      (renderCard course).nameHtml = course.course_name
      ∧ (renderCard course).lecturerHtml = course.lecturer_name
      ∧ (0 < course.shared_sections.length →
          (renderCard course).sectionsHtml
            = "<span class=\"shared-label\">Shared with:</span>"
                ++ String.join (course.shared_sections.map (fun s =>
                    "<span class=\"section-badge\">Section " ++ s ++ "</span>"))))
    ∧ (renderCard ⟨"<b>", "<i>", ["<u>"]⟩).nameHtml = "<b>"
    ∧ escapeHtml (some "<b>") = "&lt;b&gt;"
    ∧ (∀ st : ColorState,
        (renderSlotCell true
          (fun _ => some ⟨some "<b>", some "<b>", some "<b>", some "<b>"⟩) 0 1 st).1
          = [BodyCell.courseCell (getCourseColor st "<b>").1
              "&lt;b&gt;" "&lt;b&gt;" "&lt;b&gt;" "&lt;b&gt;"]) := by
  refine ⟨?_, rfl, rfl, ?_⟩
  · intro course
    refine ⟨rfl, rfl, ?_⟩
    intro hpos
    unfold renderCard sectionsFragment sectionBadge
    rw [if_pos hpos]
  · intro st
    rfl

/-! ## Export pipeline: 16:9 normalization (`downloadAsImage` / `downloadAsPdf`)

Both export paths run the identical normalization block on the captured
canvas.  Canvas dimensions are integers; the JS float arithmetic on them
is modelled over `ℚ` (exact for these integer inputs up to the final
`Math.round`). -/

/-- `Math.round`: round half toward positive infinity. -/
def jsRound (q : ℚ) : ℤ := ⌊q + 1 / 2⌋

/-- `targetRatio = 16 / 9`. -/
def targetRatio : ℚ := 16 / 9

/-- The canvas produced by the normalization block: final dimensions, the
centering offsets passed to `drawImage`, and whether the source canvas was
passed through unchanged. -/
structure NormalizedCanvas where
  width : Nat
  height : Nat
  xOffset : Int
  yOffset : Int
  passedThrough : Bool
deriving Repr, DecidableEq

/-- The 16:9 normalization of `downloadAsImage`/`downloadAsPdf`: if the
source ratio differs from 16:9 by more than 0.01, keep the larger-ratio
dimension and round the other up to a 16:9 frame, centering the source by
the rounded half-differences; otherwise use the source canvas unchanged. -/
def normalizeCanvas (w h : Nat) : NormalizedCanvas :=
  if |(w : ℚ) / (h : ℚ) - targetRatio| > 1 / 100 then
    if (w : ℚ) / (h : ℚ) > targetRatio then
      { width := w
        height := (jsRound ((w : ℚ) / targetRatio)).toNat
        xOffset := jsRound (((w : ℚ) - (w : ℚ)) / 2)
        yOffset := jsRound ((((jsRound ((w : ℚ) / targetRatio)).toNat : ℚ) - (h : ℚ)) / 2)
        passedThrough := false }
    else
      { width := (jsRound ((h : ℚ) * targetRatio)).toNat
        height := h
        xOffset := jsRound ((((jsRound ((h : ℚ) * targetRatio)).toNat : ℚ) - (w : ℚ)) / 2)
        yOffset := jsRound (((h : ℚ) - (h : ℚ)) / 2)
        passedThrough := false }
  else
    { width := w, height := h, xOffset := 0, yOffset := 0, passedThrough := true }

theorem jsRound_intCast_le (z : ℤ) (q : ℚ) (hq : (z : ℚ) ≤ q) : z ≤ jsRound q := by
  unfold jsRound
  rw [Int.le_floor]
  push_cast
  linarith

theorem jsRound_le (q : ℚ) : (jsRound q : ℚ) ≤ q + 1 / 2 := by
  unfold jsRound
  exact_mod_cast Int.floor_le (q + 1 / 2)

theorem jsRound_gt (q : ℚ) : q - 1 / 2 < (jsRound q : ℚ) := by
  unfold jsRound
  have := Int.lt_floor_add_one (q + 1 / 2)
  push_cast at this ⊢
  linarith

theorem jsRound_nonneg (q : ℚ) (hq : 0 ≤ q) : 0 ≤ jsRound q :=
  jsRound_intCast_le 0 q (by exact_mod_cast hq)

/-- C5: for every source canvas of positive dimensions, the normalization
pads — the output dimensions dominate the source's; a source ratio within
the 0.01 tolerance of 16:9 is passed through unchanged; a source ratio
outside it yields a canvas whose ratio is 16:9 up to rounding
(`|9·width − 16·height| ≤ 8`); the content offsets are the rounded half
dimension differences. -/
theorem export_normalization_spec (w h : Nat) (hw : 0 < w) (hh : 0 < h) :
    (w ≤ (normalizeCanvas w h).width ∧ h ≤ (normalizeCanvas w h).height)
    ∧ (|(w : ℚ) / (h : ℚ) - 16 / 9| ≤ 1 / 100 →
        normalizeCanvas w h = ⟨w, h, 0, 0, true⟩)
    ∧ (|(w : ℚ) / (h : ℚ) - 16 / 9| > 1 / 100 →
        |9 * ((normalizeCanvas w h).width : ℤ) - 16 * ((normalizeCanvas w h).height : ℤ)| ≤ 8
        ∧ (normalizeCanvas w h).passedThrough = false)
    ∧ ((normalizeCanvas w h).passedThrough = false →
        (normalizeCanvas w h).xOffset
            = jsRound ((((normalizeCanvas w h).width : ℚ) - (w : ℚ)) / 2)
        ∧ (normalizeCanvas w h).yOffset
            = jsRound ((((normalizeCanvas w h).height : ℚ) - (h : ℚ)) / 2)) := by
  have hhq : (0 : ℚ) < (h : ℚ) := by exact_mod_cast hh
  have hwq : (0 : ℚ) < (w : ℚ) := by exact_mod_cast hw
  unfold normalizeCanvas targetRatio
  by_cases hout : |(w : ℚ) / (h : ℚ) - 16 / 9| > 1 / 100
  · rw [if_pos hout]
    by_cases hin : (w : ℚ) / (h : ℚ) > 16 / 9
    · rw [if_pos hin]
      have hq : (w : ℚ) / (16 / 9) = 9 * (w : ℚ) / 16 := by ring
      have hgt : (h : ℚ) < (w : ℚ) / (16 / 9) := by
        rw [gt_iff_lt, lt_div_iff hhq] at hin
        rw [hq, lt_div_iff (by norm_num : (0 : ℚ) < 16)]
        linarith
      have hFz : (h : ℤ) ≤ jsRound ((w : ℚ) / (16 / 9)) :=
        jsRound_intCast_le (h : ℤ) _ (by push_cast; linarith)
      have hF0 : 0 ≤ jsRound ((w : ℚ) / (16 / 9)) :=
        le_trans (by exact_mod_cast Nat.zero_le h) hFz
      have hcast : (((jsRound ((w : ℚ) / (16 / 9))).toNat : ℕ) : ℤ)
          = jsRound ((w : ℚ) / (16 / 9)) := Int.toNat_of_nonneg hF0
      refine ⟨⟨le_refl w, ?_⟩, ?_, ?_, ?_⟩
      · have := Int.toNat_le_toNat hFz
        simpa using this
      · intro habs
        exact absurd hout (not_lt.mpr habs)
      · intro _
        refine ⟨?_, rfl⟩
        rw [abs_le]
        have h1 : (jsRound ((w : ℚ) / (16 / 9)) : ℚ) ≤ (w : ℚ) / (16 / 9) + 1 / 2 :=
          jsRound_le _
        have h2 : (w : ℚ) / (16 / 9) - 1 / 2 < (jsRound ((w : ℚ) / (16 / 9)) : ℚ) :=
          jsRound_gt _
        constructor
        · have : (-8 : ℚ) ≤ 9 * (w : ℚ) - 16 * (jsRound ((w : ℚ) / (16 / 9)) : ℚ) := by
            linarith [hq]
          have hz : (-8 : ℤ) ≤ 9 * (w : ℤ) - 16 * jsRound ((w : ℚ) / (16 / 9)) := by
            exact_mod_cast this
          rw [hcast]
          exact hz
        · have : 9 * (w : ℚ) - 16 * (jsRound ((w : ℚ) / (16 / 9)) : ℚ) ≤ 8 := by
            linarith [hq]
          have hz : 9 * (w : ℤ) - 16 * jsRound ((w : ℚ) / (16 / 9)) ≤ 8 := by
            exact_mod_cast this
          rw [hcast]
          exact hz
      · intro _
        exact ⟨rfl, rfl⟩
    · rw [if_neg hin]
      have hle : (w : ℚ) ≤ (h : ℚ) * (16 / 9) := by
        rw [gt_iff_lt, not_lt, div_le_iff hhq] at hin
        linarith
      have hGz : (w : ℤ) ≤ jsRound ((h : ℚ) * (16 / 9)) :=
        jsRound_intCast_le (w : ℤ) _ (by push_cast; linarith)
      have hG0 : 0 ≤ jsRound ((h : ℚ) * (16 / 9)) :=
        le_trans (by exact_mod_cast Nat.zero_le w) hGz
      have hcast : (((jsRound ((h : ℚ) * (16 / 9))).toNat : ℕ) : ℤ)
          = jsRound ((h : ℚ) * (16 / 9)) := Int.toNat_of_nonneg hG0
      refine ⟨⟨?_, le_refl h⟩, ?_, ?_, ?_⟩
      · have := Int.toNat_le_toNat hGz
        simpa using this
      · intro habs
        exact absurd hout (not_lt.mpr habs)
      · intro _
        refine ⟨?_, rfl⟩
        rw [abs_le]
        have h1 : (jsRound ((h : ℚ) * (16 / 9)) : ℚ) ≤ (h : ℚ) * (16 / 9) + 1 / 2 :=
          jsRound_le _
        have h2 : (h : ℚ) * (16 / 9) - 1 / 2 < (jsRound ((h : ℚ) * (16 / 9)) : ℚ) :=
          jsRound_gt _
        constructor
        · have : (-8 : ℚ) ≤ 9 * (jsRound ((h : ℚ) * (16 / 9)) : ℚ) - 16 * (h : ℚ) := by
            linarith
          have hz : (-8 : ℤ) ≤ 9 * jsRound ((h : ℚ) * (16 / 9)) - 16 * (h : ℤ) := by
            exact_mod_cast this
          rw [hcast]
          exact hz
        · have : 9 * (jsRound ((h : ℚ) * (16 / 9)) : ℚ) - 16 * (h : ℚ) ≤ 8 := by
            linarith
          have hz : 9 * jsRound ((h : ℚ) * (16 / 9)) - 16 * (h : ℤ) ≤ 8 := by
            exact_mod_cast this
          rw [hcast]
          exact hz
      · intro _
        exact ⟨rfl, rfl⟩
  · rw [if_neg hout]
    refine ⟨⟨le_refl w, le_refl h⟩, fun _ => rfl, ?_, ?_⟩
    · intro habs
      exact absurd habs hout
    · intro hpt
      exact Bool.noConfusion hpt

/-! ## Export pipeline: failure semantics (`downloadAsImage` / `downloadAsPdf`)

The browser steps that can throw — `html2canvas` rasterization and
`toDataURL` encoding — are modelled as `Except`-valued inputs.  The
rasterization outcome is indexed by attempt number: the handlers consult
attempt 0 only, which is the no-retry property.  The restored button
`innerHTML` is an inline SVG icon followed by a caption; the label is
modelled by its caption text. -/

/-- Caption of the restored image-button `innerHTML`. -/
def imageIdleCaption : String := "Download as Image"

/-- Caption of the restored PDF-button `innerHTML`. -/
def pdfIdleCaption : String := "Download as PDF"

/-- The UI state after a download handler finishes: the trigger button's
`disabled` flag and label, whether `alert` fired and with what message,
whether a file was saved, and whether `console.error` logged a failure. -/
structure ExportUIState where
  btnDisabled : Bool
  btnLabel : String
  alertShown : Bool
  alertMessage : String
  saved : Bool
  errorLogged : Bool
deriving Repr, DecidableEq

/-- `downloadAsImage` from `prettier.js`: try rasterize (attempt 0), then
normalize and encode; any failure is caught, logged and alerted; the
`finally` block always re-enables the button and restores its label. -/
def downloadAsImageRun (raster : Nat → Except String (Nat × Nat))
    (encode : Nat × Nat → Except String String) : ExportUIState :=
  match raster 0 with
  | Except.error _ =>
    { btnDisabled := false, btnLabel := imageIdleCaption, alertShown := true
      alertMessage := "Failed to generate image. Please try again."
      saved := false, errorLogged := true }
  | Except.ok wh =>
    match encode ((normalizeCanvas wh.1 wh.2).width, (normalizeCanvas wh.1 wh.2).height) with
    | Except.error _ =>
      { btnDisabled := false, btnLabel := imageIdleCaption, alertShown := true
        alertMessage := "Failed to generate image. Please try again."
        saved := false, errorLogged := true }
    | Except.ok _ =>
      { btnDisabled := false, btnLabel := imageIdleCaption, alertShown := false
        alertMessage := "", saved := true, errorLogged := false }

/-- `downloadAsPdf` from `prettier.js`: same structure as the image path,
with the PDF alert message and button label. -/
def downloadAsPdfRun (raster : Nat → Except String (Nat × Nat))
    (encode : Nat × Nat → Except String String) : ExportUIState :=
  match raster 0 with
  | Except.error _ =>
    { btnDisabled := false, btnLabel := pdfIdleCaption, alertShown := true
      alertMessage := "Failed to generate PDF. Please try again."
      saved := false, errorLogged := true }
  | Except.ok wh =>
    match encode ((normalizeCanvas wh.1 wh.2).width, (normalizeCanvas wh.1 wh.2).height) with
    | Except.error _ =>
      { btnDisabled := false, btnLabel := pdfIdleCaption, alertShown := true
        alertMessage := "Failed to generate PDF. Please try again."
        saved := false, errorLogged := true }
    | Except.ok _ =>
      { btnDisabled := false, btnLabel := pdfIdleCaption, alertShown := false
        alertMessage := "", saved := true, errorLogged := false }

/-- C6: on every export attempt, a rasterization or encoding failure
surfaces a user-facing alert (and nothing is saved); on every path the
trigger button ends enabled with its label restored; and only the first
rasterization outcome is ever consulted — no retry. -/
theorem export_failure_semantics :
    (∀ (raster : Nat → Except String (Nat × Nat))
        (encode : Nat × Nat → Except String String),
      (downloadAsImageRun raster encode).btnDisabled = false
      ∧ (downloadAsImageRun raster encode).btnLabel = imageIdleCaption
      ∧ (downloadAsPdfRun raster encode).btnDisabled = false
      ∧ (downloadAsPdfRun raster encode).btnLabel = pdfIdleCaption)
    ∧ (∀ (raster : Nat → Except String (Nat × Nat))
        (encode : Nat × Nat → Except String String),
      ((∃ e, raster 0 = Except.error e)
        ∨ (∃ wh e, raster 0 = Except.ok wh
            ∧ encode ((normalizeCanvas wh.1 wh.2).width, (normalizeCanvas wh.1 wh.2).height)
                = Except.error e)) →
        ((downloadAsImageRun raster encode).alertShown = true
          ∧ (downloadAsImageRun raster encode).saved = false
          ∧ (downloadAsPdfRun raster encode).alertShown = true
          ∧ (downloadAsPdfRun raster encode).saved = false))
    ∧ (∀ (raster raster' : Nat → Except String (Nat × Nat))
        (encode : Nat × Nat → Except String String),
      raster 0 = raster' 0 →
        downloadAsImageRun raster encode = downloadAsImageRun raster' encode
        ∧ downloadAsPdfRun raster encode = downloadAsPdfRun raster' encode) := by
  refine ⟨?_, ?_, ?_⟩
  · intro raster encode
    unfold downloadAsImageRun downloadAsPdfRun
    cases raster 0 with
    | error e => exact ⟨rfl, rfl, rfl, rfl⟩
    | ok wh =>
      dsimp only
      cases encode ((normalizeCanvas wh.1 wh.2).width, (normalizeCanvas wh.1 wh.2).height) with
      | error e => exact ⟨rfl, rfl, rfl, rfl⟩
      | ok s => exact ⟨rfl, rfl, rfl, rfl⟩
  · intro raster encode hfail
    unfold downloadAsImageRun downloadAsPdfRun
    rcases hfail with ⟨e, he⟩ | ⟨wh, e, hok, herr⟩
    · rw [he]
      exact ⟨rfl, rfl, rfl, rfl⟩
    · rw [hok]
      dsimp only
      rw [herr]
      exact ⟨rfl, rfl, rfl, rfl⟩
  · intro raster raster' encode h0
    unfold downloadAsImageRun downloadAsPdfRun
    rw [h0]
    exact ⟨rfl, rfl⟩

/-! ## Fetch failure handling (`loadSharedLecturers` / `loadTimetable`)

The `fetch`+`json` pipeline (and, for the timetable view, the
`data.error` payload re-thrown inside the `try`) is modelled as an
`Except`-valued outcome, indexed by attempt number; the handlers consult
attempt 0 only. -/

/-- The comparison view's UI after `loadSharedLecturers` settles: the
loading indicator, whether the results container is displayed again, what
the results area holds, and whether `console.error` logged a failure. -/
structure CompareUIState where
  loadingActive : Bool
  resultsDisplayed : Bool
  errorMessage : Option String
  view : Option CompareView
  errorLogged : Bool
deriving DecidableEq

/-- `loadSharedLecturers` from `app.js`: show loading, fetch; on success
hide loading and render; on failure log, hide loading and replace the
results area with the inline empty-state error message.  No alert is used
in this view. -/
def loadSharedLecturersRun (fetches : Nat → Except String SharedLecturersData) :
    CompareUIState :=
  match fetches 0 with
  | Except.ok d =>
    { loadingActive := false, resultsDisplayed := true, errorMessage := none
      view := some (renderResults d), errorLogged := false }
  | Except.error _ =>
    { loadingActive := false, resultsDisplayed := true
      errorMessage := some "Failed to load data. Please try again."
      view := none, errorLogged := true }

/-- The timetable view's UI after `loadTimetable` settles: whether the
loading overlay is hidden again (the `finally` block), whether `alert`
fired and with what message, the rendered table if any, and whether the
failure was logged. -/
structure TimetableUIState where
  loadingHidden : Bool
  alertShown : Bool
  alertMessage : String
  rendered : Option RenderedTable
  errorLogged : Bool

/-- `loadTimetable` from `prettier.js`: show loading, fetch; on success
render the timetable; on failure log and `alert('Failed to load
timetable: ' + error.message)`; the `finally` block always hides the
loading overlay. -/
def loadTimetableRun (fetches : Nat → Except String TimetableData) :
    TimetableUIState :=
  match fetches 0 with
  | Except.ok d =>
    { loadingHidden := true, alertShown := false, alertMessage := ""
      rendered := some (renderTimetable d), errorLogged := false }
  | Except.error msg =>
    { loadingHidden := true, alertShown := true
      alertMessage := "Failed to load timetable: " ++ msg
      rendered := none, errorLogged := true }

/-- C8: a network/parse failure is caught and logged; the comparison view
replaces its results area with a non-fatal inline message (no alert) while
the timetable view shows an alert; both views clear their loading
indicator on every path; and only the first fetch outcome is consulted —
no retry before the next user action. -/
theorem fetch_failure_handling :
    (∀ (fetches : Nat → Except String SharedLecturersData) (msg : String),
      fetches 0 = Except.error msg →
        (loadSharedLecturersRun fetches).errorLogged = true
        ∧ (loadSharedLecturersRun fetches).errorMessage
            = some "Failed to load data. Please try again."
        ∧ (loadSharedLecturersRun fetches).view = none)
    ∧ (∀ fetches : Nat → Except String SharedLecturersData,
        (loadSharedLecturersRun fetches).loadingActive = false
        ∧ (loadSharedLecturersRun fetches).resultsDisplayed = true)
    ∧ (∀ (fetches : Nat → Except String TimetableData) (msg : String),
      fetches 0 = Except.error msg →
        (loadTimetableRun fetches).errorLogged = true
        ∧ (loadTimetableRun fetches).alertShown = true
        ∧ (loadTimetableRun fetches).alertMessage = "Failed to load timetable: " ++ msg)
    ∧ (∀ fetches : Nat → Except String TimetableData,
        (loadTimetableRun fetches).loadingHidden = true)
    ∧ (∀ f f' : Nat → Except String SharedLecturersData, f 0 = f' 0 →
        loadSharedLecturersRun f = loadSharedLecturersRun f')
    ∧ (∀ g g' : Nat → Except String TimetableData, g 0 = g' 0 →
        loadTimetableRun g = loadTimetableRun g') := by
  refine ⟨?_, ?_, ?_, ?_, ?_, ?_⟩
  · intro fetches msg hmsg
    unfold loadSharedLecturersRun
    rw [hmsg]
    exact ⟨rfl, rfl, rfl⟩
  · intro fetches
    unfold loadSharedLecturersRun
    cases fetches 0 with
    | ok d => exact ⟨rfl, rfl⟩
    | error e => exact ⟨rfl, rfl⟩
  · intro fetches msg hmsg
    unfold loadTimetableRun
    rw [hmsg]
    exact ⟨rfl, rfl, rfl⟩
  · intro fetches
    unfold loadTimetableRun
    cases fetches 0 with
    | ok d => rfl
    | error e => rfl
  · intro f f' h0
    unfold loadSharedLecturersRun
    rw [h0]
  · intro g g' h0
    unfold loadTimetableRun
    rw [h0]

/-! ## Concrete sample data for the witnesses -/

/-- A concrete timetable cell. -/
def sampleCell : CellData := ⟨some "CS101", some "Intro", some "R1", some "Dr. X"⟩

/-- A concrete day: one class in slot 1, nothing in slot 6. -/
def sampleDayData : DayData := fun slot => if slot = 1 then some sampleCell else none

/-- A concrete timetable: Monday has `sampleDayData`, the other days are
absent; no slot-6 data anywhere, so `hasBreakClasses` is `false`. -/
def sampleTT : TimetableData :=
  { «section» := "A"
    time_slots := [1, 6]
    slot_times := fun _ => some "08:00"
    timetable := fun day => if day = "MON" then some sampleDayData else none }

/-- A concrete course list for the comparison view. -/
def sampleCourses : List Course :=
  [⟨"Calculus", "Dr. A", ["2", "3"]⟩, ⟨"Physics", "Dr. B", []⟩]

/-- A concrete shared-lecturers payload. -/
def sampleSharedData : SharedLecturersData := ⟨some sampleCourses⟩

/-- Witness for the break-rendering claim: on `sampleTT` (no slot-6 data,
so `hasBreakClasses` is false) the header row contains the `BREAK` header
with its slot time. -/
theorem break_rendering_witness :
    HeaderCell.breakHeader ((sampleTT.slot_times 6).getD "") ∈ renderHeader sampleTT :=
  ((break_rendering_consistent sampleTT (by decide)).1 (by decide)).1

/-- Witness for the aggregate-counters claim at `sampleSharedData`. -/
theorem aggregate_counters_witness :
    renderResults sampleSharedData
      = CompareView.results sampleCourses.length
          ((sampleCourses.map (fun c => c.shared_sections.length)).sum)
          (sampleCourses.map renderCard) :=
  aggregate_counters_spec sampleSharedData sampleCourses rfl (by decide)

/-- Witness for the normalization claim: a 1600×900 canvas is exactly 16:9
and is passed through unchanged. -/
theorem export_normalization_witness :
    normalizeCanvas 1600 900 = ⟨1600, 900, 0, 0, true⟩ :=
  (export_normalization_spec 1600 900 (by decide) (by decide)).2.1
    (by push_cast; rw [show (1600 : ℚ) / 900 - 16 / 9 = 0 by norm_num, abs_zero]; norm_num)

/-- Witness for the cell-rendering claim: the Monday slot-1 cell of
`sampleTT` renders as a colored course cell with escaped fields. -/
theorem cell_rendering_witness :
    (renderSlotCell (hasBreakClasses sampleTT) (dayDataOf sampleTT "MON") 0 1 initColorState).1
      = [BodyCell.courseCell (getCourseColor initColorState "CS101").1
          (escapeHtml sampleCell.name) (escapeHtml sampleCell.code)
          (escapeHtml sampleCell.location) (escapeHtml sampleCell.lecturer)] :=
  (cell_rendering_contract sampleTT "MON" 0 1 initColorState (by decide)).1
    sampleCell "CS101" rfl rfl (by decide)

/-- Witness for the totality claim: Tuesday is absent from `sampleTT` and
contributes no slot-6 data to the break heuristic. -/
theorem render_total_witness : slot6HasData sampleTT "TUE" = false :=
  (render_total_on_missing_day sampleTT "TUE" 1 initColorState rfl).2.2.1

end CLF
